import Mathlib

/-!
Shallow embedding of the BananaPod canvas editor core
(src/unnamed/part_000 — the App component — and src/utils/elementUtils.ts),
with theorems settling the frozen claims about hit-testing, rubber-band
selection, the undo/redo history stack, paste, erase gestures, resizing,
and the image-generation adapter.

Modelling conventions:
* JS numbers are modelled as `ℚ` (the code only adds, subtracts,
  multiplies, divides and compares coordinates).
* Element ids are modelled as `ℕ`; the JS `generateId` (timestamp plus
  random suffix) is modelled as a fresh-id counter `nextId` carried in the
  application state, the standard deterministic model of a fresh-id
  supply.
* The flat document is a `List Element`; list order is paint/z-order
  (later = on top), exactly as in the source.
-/

/-- A canvas-space point, as in `types` (`Point`). -/
structure Point where
  x : ℚ
  y : ℚ
deriving DecidableEq

/-- The tagged union of visual primitives (`ImageElement`, `ShapeElement`,
`PathElement` in `types`), with the fields the source reads and writes. -/
inductive Element where
  | image (id : ℕ) (x y width height : ℚ) (href mimeType : String)
  | shape (id : ℕ) (shapeType : String) (x y width height : ℚ)
      (strokeColor : String) (strokeWidth : ℚ) (fillColor : String)
  | path (id : ℕ) (points : List Point) (strokeColor : String)
      (strokeWidth : ℚ) (x y : ℚ)
deriving DecidableEq

instance : Inhabited Element :=
  ⟨Element.path 0 [] "" 0 0 0⟩

/-- `element.id`, defined on every variant. -/
def Element.eid : Element → ℕ
  | .image i _ _ _ _ _ _ => i
  | .shape i _ _ _ _ _ _ _ _ => i
  | .path i _ _ _ _ _ => i

/-- `element.x`, defined on every variant (paths carry an `x` field too). -/
def Element.ex : Element → ℚ
  | .image _ x _ _ _ _ _ => x
  | .shape _ _ x _ _ _ _ _ _ => x
  | .path _ _ _ _ x _ => x

/-- `element.y`, defined on every variant (paths carry a `y` field too). -/
def Element.ey : Element → ℚ
  | .image _ _ y _ _ _ _ => y
  | .shape _ _ _ y _ _ _ _ _ => y
  | .path _ _ _ _ _ y => y

/-- The per-element containment test in the body of the
`getElementAtPosition` loop (src/utils/elementUtils.ts lines 8-27): a path
with fewer than two points is skipped (`continue`, i.e. it never matches);
otherwise the query point is tested against the inclusive axis-aligned
bounding box of the path's points; an image or shape is tested against
`[x, x+width] × [y, y+height]`. -/
def hitMatches (x y : ℚ) (e : Element) : Bool :=
  match e with
  | .path _ points _ _ _ _ =>
      if points.length < 2 then false
      else
        match points with
        | [] => false
        | p :: ps =>
            let minX := ps.foldl (fun a q => min a q.x) p.x
            let maxX := ps.foldl (fun a q => max a q.x) p.x
            let minY := ps.foldl (fun a q => min a q.y) p.y
            let maxY := ps.foldl (fun a q => max a q.y) p.y
            decide (minX ≤ x) && decide (x ≤ maxX) &&
              decide (minY ≤ y) && decide (y ≤ maxY)
  | .image _ ex ey w h _ _ =>
      decide (ex ≤ x) && decide (x ≤ ex + w) &&
        decide (ey ≤ y) && decide (y ≤ ey + h)
  | .shape _ _ ex ey w h _ _ _ =>
      decide (ex ≤ x) && decide (x ≤ ex + w) &&
        decide (ey ≤ y) && decide (y ≤ ey + h)

/-- The `for (let i = elements.length - 1; i >= 0; i--)` loop of
`getElementAtPosition`: scan a list (already put in top-to-bottom order)
and return the first element matching `hitMatches`. -/
def hitFromTop (x y : ℚ) : List Element → Option Element
  | [] => none
  | e :: rest => if hitMatches x y e then some e else hitFromTop x y rest

/-- `getElementAtPosition` (src/utils/elementUtils.ts lines 5-30): iterate
the document from the last element (topmost) down to the first and return
the first hit, or none. -/
def getElementAtPosition (x y : ℚ) (elements : List Element) : Option Element :=
  hitFromTop x y elements.reverse

/-- The containment rule exactly as the claim words it (for refinement
comparison with `hitMatches`): a path is tested against the axis-aligned
bounding box of its points with no minimum-point-count condition; an
image or shape is tested against its rectangle. -/
def specContains (x y : ℚ) (e : Element) : Bool :=
  match e with
  | .path _ points _ _ _ _ =>
      match points with
      | [] => false
      | p :: ps =>
          let minX := ps.foldl (fun a q => min a q.x) p.x
          let maxX := ps.foldl (fun a q => max a q.x) p.x
          let minY := ps.foldl (fun a q => min a q.y) p.y
          let maxY := ps.foldl (fun a q => max a q.y) p.y
          decide (minX ≤ x) && decide (x ≤ maxX) &&
            decide (minY ≤ y) && decide (y ≤ maxY)
  | .image _ ex ey w h _ _ =>
      decide (ex ≤ x) && decide (x ≤ ex + w) &&
        decide (ey ≤ y) && decide (y ≤ ey + h)
  | .shape _ _ ex ey w h _ _ _ =>
      decide (ex ≤ x) && decide (x ≤ ex + w) &&
        decide (ey ≤ y) && decide (y ≤ ey + h)

/-- A 10 × 10 rectangle shape at the origin (z-order index 0 in the
counterexample document). -/
def shapeA : Element :=
  Element.shape 0 "rectangle" 0 0 10 10 "#000000" 2 "none"

/-- A single-point path at (5, 5), as produced by a draw-tool click with
no pointer movement (z-order index 1, topmost). -/
def onePointPath : Element :=
  Element.path 1 [⟨5, 5⟩] "#000000" 5 0 0

example : hitMatches 5 5 shapeA = true := by norm_num [hitMatches, shapeA]
example : hitMatches 5 5 onePointPath = false := by decide
example : specContains 5 5 onePointPath = true := by decide
example : getElementAtPosition 5 5 [shapeA, onePointPath] = some shapeA := by
  norm_num [getElementAtPosition, hitFromTop, hitMatches, shapeA, onePointPath]

/-- A hit of `hitFromTop` is a member of the scanned list, it passes the
containment test, and nothing scanned before it (closer to the top) passes
the test. -/
theorem hitFromTop_eq_some (x y : ℚ) :
    ∀ (l : List Element) (e : Element), hitFromTop x y l = some e →
      ∃ l1 l2, l = l1 ++ e :: l2 ∧ hitMatches x y e = true ∧
        ∀ a ∈ l1, hitMatches x y a = false := by
  intro l
  induction l with
  | nil => intro e h; simp [hitFromTop] at h
  | cons b rest ih =>
      intro e h
      by_cases hb : hitMatches x y b = true
      · rw [hitFromTop, if_pos hb] at h
        obtain rfl : b = e := by injection h
        exact ⟨[], rest, rfl, hb, by simp⟩
      · rw [hitFromTop, if_neg hb] at h
        obtain ⟨l1, l2, hsplit, hm, hpre⟩ := ih e h
        refine ⟨b :: l1, l2, by simp [hsplit], hm, ?_⟩
        intro a ha
        rcases List.mem_cons.mp ha with rfl | ha'
        · exact Bool.not_eq_true _ ▸ Bool.of_not_eq_true hb
        · exact hpre a ha'

/-- `hitFromTop` returns none exactly when no scanned element passes the
containment test. -/
theorem hitFromTop_eq_none (x y : ℚ) :
    ∀ l : List Element, hitFromTop x y l = none ↔
      ∀ a ∈ l, hitMatches x y a = false := by
  intro l
  induction l with
  | nil => simp [hitFromTop]
  | cons b rest ih =>
      by_cases hb : hitMatches x y b = true
      · rw [hitFromTop, if_pos hb]
        simp [hb]
      · rw [hitFromTop, if_neg hb]
        simp only [List.mem_cons, ih]
        constructor
        · intro h a ha
          rcases ha with rfl | ha'
          · exact Bool.of_not_eq_true hb
          · exact h a ha'
        · intro h a ha
          exact h a (Or.inr ha)

/-- C4 (amended): `getElementAtPosition` returns a topmost match for the
containment test actually used by the code (`hitMatches`, which skips
paths with fewer than two points): a returned element splits the document
as `l1 ++ e :: l2` where `e` matches and no element above it (in `l2`,
later in paint order) matches; and it returns none exactly when no
element matches. -/
theorem getElementAtPosition_topmost (x y : ℚ) (els : List Element) :
    (∀ e, getElementAtPosition x y els = some e →
      ∃ l1 l2, els = l1 ++ e :: l2 ∧ hitMatches x y e = true ∧
        ∀ a ∈ l2, hitMatches x y a = false)
    ∧ (getElementAtPosition x y els = none ↔
        ∀ a ∈ els, hitMatches x y a = false) := by
  constructor
  · intro e h
    obtain ⟨l1, l2, hsplit, hm, hpre⟩ := hitFromTop_eq_some x y els.reverse e h
    refine ⟨l2.reverse, l1.reverse, ?_, hm, ?_⟩
    · have h2 := congrArg List.reverse hsplit
      simpa using h2
    · intro a ha
      exact hpre a (List.mem_reverse.mp ha)
  · rw [getElementAtPosition, hitFromTop_eq_none]
    constructor
    · intro h a ha
      exact h a (List.mem_reverse.mpr ha)
    · intro h a ha
      exact h a (List.mem_reverse.mp ha)

/-- C4 counterexample: at point (5, 5) both elements of the document
`[shapeA, onePointPath]` contain the point under the containment rule as
the claim states it (`specContains`, bounding-box test with no
minimum-point-count condition), the topmost is `onePointPath` (order
index 1), yet `getElementAtPosition` does not return it — the code skips
single-point paths and returns the shape below instead. -/
theorem getElementAtPosition_claim_counterexample :
    specContains 5 5 shapeA = true ∧ specContains 5 5 onePointPath = true ∧
    getElementAtPosition 5 5 [shapeA, onePointPath] = some shapeA ∧
    getElementAtPosition 5 5 [shapeA, onePointPath] ≠ some onePointPath := by
  refine ⟨by norm_num [specContains, shapeA], by decide, ?_, ?_⟩
  · norm_num [getElementAtPosition, hitFromTop, hitMatches, shapeA, onePointPath]
  · norm_num [getElementAtPosition, hitFromTop, hitMatches, shapeA, onePointPath]
    decide

/-- C4 witness: the theorem applied to the two-element document at point
(5, 5), where it returns the shape with the skipped single-point path
above it. -/
theorem getElementAtPosition_topmost_witness :
    ∃ l1 l2, ([shapeA, onePointPath] : List Element) = l1 ++ shapeA :: l2 ∧
      hitMatches 5 5 shapeA = true ∧ ∀ a ∈ l2, hitMatches 5 5 a = false :=
  (getElementAtPosition_topmost 5 5 [shapeA, onePointPath]).1 shapeA (by
    norm_num [getElementAtPosition, hitFromTop, hitMatches, shapeA, onePointPath])

/-- A two-point path from (0, 0) to (10, 10). -/
def twoPointPath : Element :=
  Element.path 2 [⟨0, 0⟩, ⟨10, 10⟩] "#000000" 5 0 0

/-- C10: `getElementAtPosition` never returns a path element with fewer
than two points — the loop skips such paths outright, so a single-point
path can never be hit, click-selected, or erased. -/
theorem hitTest_no_short_path (x y : ℚ) (els : List Element) (e : Element)
    (h : getElementAtPosition x y els = some e)
    (i : ℕ) (pts : List Point) (sc : String) (sw px py : ℚ)
    (he : e = Element.path i pts sc sw px py) :
    2 ≤ pts.length := by
  obtain ⟨l1, l2, _, hm, _⟩ := hitFromTop_eq_some x y els.reverse e h
  subst he
  by_contra hlt
  push_neg at hlt
  simp only [hitMatches] at hm
  rw [if_pos hlt] at hm
  exact Bool.noConfusion hm

/-- C10 witness: the theorem applied to a document holding one two-point
path, hit at (5, 5). -/
theorem hitTest_no_short_path_witness :
    2 ≤ ([⟨0, 0⟩, ⟨10, 10⟩] : List Point).length :=
  hitTest_no_short_path 5 5 [twoPointPath] twoPointPath
    (by norm_num [getElementAtPosition, hitFromTop, hitMatches, twoPointPath])
    2 [⟨0, 0⟩, ⟨10, 10⟩] "#000000" 5 0 0 rfl

/-- An axis-aligned rectangle, as used for the rubber-band selection box,
the crop box and resize geometry in the App component. -/
structure Rect where
  x : ℚ
  y : ℚ
  width : ℚ
  height : ℚ
deriving DecidableEq

/-- `isElementInSelectionBox` (src/unnamed/part_000 lines 447-459): a path
is in the box when any of its points lies within the box's inclusive
bounds; an image or shape is in the box when its rectangle overlaps the
box rectangle by the strict AABB test. (The source's `element.width || 0`
reads the width field with a fallback of 0; in the model the field is
always present and `w || 0 = w` since `0 || 0 = 0`.) -/
def isElementInSelectionBox (element : Element) (box : Rect) : Bool :=
  match element with
  | .path _ points _ _ _ _ =>
      points.any fun point =>
        decide (box.x ≤ point.x) && decide (point.x ≤ box.x + box.width) &&
          decide (box.y ≤ point.y) && decide (point.y ≤ box.y + box.height)
  | .image _ ex ey w h _ _ =>
      decide (ex < box.x + box.width) && decide (box.x < ex + w) &&
        decide (ey < box.y + box.height) && decide (box.y < ey + h)
  | .shape _ _ ex ey w h _ _ _ =>
      decide (ex < box.x + box.width) && decide (box.x < ex + w) &&
        decide (ey < box.y + box.height) && decide (box.y < ey + h)

/-- The rubber-band branch of `handleMouseUp` (src/unnamed/part_000 lines
406-415): walk the document in order and collect the id of every element
that is in the selection box (modelling the `forEach`/`push` loop). -/
def rubberBandSelect (els : List Element) (box : Rect) : List ℕ :=
  els.foldl
    (fun acc el =>
      if isElementInSelectionBox el box then acc ++ [el.eid] else acc)
    []

/-- Unfolding lemma for the `forEach`/`push` loop: folding from any
accumulator appends exactly the ids of the elements in the box. -/
theorem rubberBandSelect_fold (box : Rect) :
    ∀ (els : List Element) (acc : List ℕ),
      els.foldl
        (fun acc el =>
          if isElementInSelectionBox el box then acc ++ [el.eid] else acc)
        acc
      = acc ++ (els.filter fun el => isElementInSelectionBox el box).map Element.eid := by
  intro els
  induction els with
  | nil => intro acc; simp
  | cons b rest ih =>
      intro acc
      by_cases hb : isElementInSelectionBox b box = true
      · simp [List.foldl_cons, if_pos hb, ih, List.filter_cons, hb]
      · simp only [List.foldl_cons, if_neg hb, ih]
        rw [List.filter_cons_of_neg (by simpa using hb)]

/-- The shape `{x:10, y:10, width:5, height:5}` of the claim's scenario. -/
def shapeInside : Element :=
  Element.shape 10 "rectangle" 10 10 5 5 "#000000" 2 "none"

/-- The shape `{x:95, y:95, width:20, height:20}` of the claim's scenario. -/
def shapeOverlap : Element :=
  Element.shape 11 "rectangle" 95 95 20 20 "#000000" 2 "none"

/-- The shape `{x:200, y:200, width:10, height:10}` of the claim's scenario. -/
def shapeOutside : Element :=
  Element.shape 12 "rectangle" 200 200 10 10 "#000000" 2 "none"

/-- C5: pointer-up over a rubber-band box selects exactly the ids of the
elements satisfying the box-membership rule (`isElementInSelectionBox`:
a path when any of its points is within the inclusive bounds, an
image/shape when the strict AABB overlap test passes); in particular the
box `{x:0, y:0, width:100, height:100}` selects the fully-inside shape at
(10,10,5,5) and the partially-overlapping shape at (95,95,20,20) but not
the shape at (200,200,10,10). -/
theorem rubber_band_selects_membership (els : List Element) (box : Rect) :
    rubberBandSelect els box
      = (els.filter fun el => isElementInSelectionBox el box).map Element.eid
    ∧ rubberBandSelect [shapeInside, shapeOverlap, shapeOutside] ⟨0, 0, 100, 100⟩
      = [10, 11] := by
  constructor
  · exact rubberBandSelect_fold box els []
  · norm_num [rubberBandSelect, isElementInSelectionBox, shapeInside,
      shapeOverlap, shapeOutside, Element.eid]

/-- The slice of the App component's state that the history, clipboard and
erase claims touch: `history` and `historyIndex` (the undo stack and its
cursor), `elements` (the live document), `clipboard` (the one-slot copy
buffer) and `nextId` (the fresh-id counter modelling `generateId`). -/
structure AppState where
  history : List (List Element)
  historyIndex : ℕ
  elements : List Element
  clipboard : Option Element
  nextId : ℕ
deriving DecidableEq

/-- The initial state: `useState([[]])` for history, cursor 0, empty
document, empty clipboard. -/
def initState : AppState :=
  { history := [[]], historyIndex := 0, elements := [], clipboard := none,
    nextId := 0 }

/-- `commitAction` (src/unnamed/part_000 lines 79-84): truncate the
history after the cursor (`slice(0, historyIndex + 1)`), append the new
snapshot, and move the cursor to the new last index. -/
def commitAction (s : AppState) (newElements : List Element) : AppState :=
  let newHistory := s.history.take (s.historyIndex + 1) ++ [newElements]
  { s with history := newHistory, historyIndex := newHistory.length - 1 }

/-- One commit as every caller performs it: `setElements(newElements)`
followed by `commitAction(newElements)`. -/
def commitStep (s : AppState) (newElements : List Element) : AppState :=
  commitAction { s with elements := newElements } newElements

/-- `handleUndo` (src/unnamed/part_000 lines 86-92): when the cursor is
positive, decrement it and load that snapshot as the live document;
otherwise a no-op. -/
def handleUndo (s : AppState) : AppState :=
  if 0 < s.historyIndex then
    { s with historyIndex := s.historyIndex - 1,
             elements := s.history.getD (s.historyIndex - 1) [] }
  else s

/-- `handleRedo` (src/unnamed/part_000 lines 94-100): when the cursor is
before the last entry, increment it and load that snapshot as the live
document; otherwise a no-op. -/
def handleRedo (s : AppState) : AppState :=
  if s.historyIndex < s.history.length - 1 then
    { s with historyIndex := s.historyIndex + 1,
             elements := s.history.getD (s.historyIndex + 1) [] }
  else s

/-- A sequence of commits applied in order. -/
def commitList (s : AppState) (docs : List (List Element)) : AppState :=
  docs.foldl commitStep s

/-- After a commit the cursor always sits exactly at the last index of the
new history (the new history is nonempty, so `length - 1` is exact). -/
theorem commitAction_cursor_last (s : AppState) (d : List Element) :
    (commitAction s d).historyIndex + 1 = (commitAction s d).history.length := by
  simp [commitAction]

/-- When the cursor is already at the end (no redoable entries), the
`slice` keeps the whole history, so a commit appends exactly one entry. -/
theorem commitAction_append (s : AppState) (d : List Element)
    (hidx : s.historyIndex + 1 = s.history.length) :
    (commitAction s d).history = s.history ++ [d] := by
  simp [commitAction, hidx, List.take_of_length_le (le_of_eq hidx.symm)]

/-- Folding `commitStep` from a state whose cursor is at the end appends
the committed snapshots one by one, leaves the cursor at the end, and
leaves the last committed snapshot (or the starting document) live. -/
theorem commitList_spec :
    ∀ (docs : List (List Element)) (s : AppState),
      s.historyIndex + 1 = s.history.length →
      (commitList s docs).history = s.history ++ docs ∧
      (commitList s docs).historyIndex + 1 = s.history.length + docs.length ∧
      (commitList s docs).elements = docs.getLastD s.elements := by
  intro docs
  induction docs with
  | nil => intro s h; simp [commitList, h]
  | cons d rest ih =>
      intro s h
      have hstep : commitList s (d :: rest) = commitList (commitStep s d) rest := by
        simp [commitList]
      have hcur : (commitStep s d).historyIndex + 1 = (commitStep s d).history.length :=
        commitAction_cursor_last _ d
      have happ : (commitStep s d).history = s.history ++ [d] := by
        simpa [commitStep] using commitAction_append { s with elements := d } d h
      have helems : (commitStep s d).elements = d := by
        simp [commitStep, commitAction]
      obtain ⟨h1, h2, h3⟩ := ih (commitStep s d) hcur
      refine ⟨?_, ?_, ?_⟩
      · rw [hstep, h1, happ]; simp
      · rw [hstep, h2, happ]
        simp
        omega
      · rw [hstep, h3, helems]
        cases rest <;> simp [List.getLastD]

/-- Iterating `handleUndo` as many times as the cursor value drives the
cursor to 0 and, when at least one undo actually runs, loads the oldest
snapshot as the live document. -/
theorem handleUndo_iter :
    ∀ (n : ℕ) (s : AppState), s.historyIndex = n → n < s.history.length →
      (handleUndo^[n] s).elements
        = (if n = 0 then s.elements else s.history.getD 0 []) := by
  intro n
  induction n with
  | zero => intro s _ _; simp
  | succ m ih =>
      intro s hidx hlt
      have hpos : 0 < s.historyIndex := by omega
      have hu : handleUndo s
          = { s with historyIndex := s.historyIndex - 1,
                     elements := s.history.getD (s.historyIndex - 1) [] } := by
        simp [handleUndo, hpos]
      rw [Function.iterate_succ_apply]
      have hidx' : (handleUndo s).historyIndex = m := by rw [hu]; simp; omega
      have hlt' : m < (handleUndo s).history.length := by rw [hu]; simp at hlt ⊢; omega
      rw [ih (handleUndo s) hidx' hlt']
      by_cases hm : m = 0
      · subst hm
        rw [hu]
        simp only [if_pos rfl, if_neg (Nat.succ_ne_zero 0)]
        have h0 : s.historyIndex - 1 = 0 := by omega
        rw [h0]
        simp
      · rw [hu]
        simp only [if_neg hm, if_neg (Nat.succ_ne_zero m)]

/-- C2: starting from the initial empty document, after any sequence of N
commits, N undos return the live document to the initial empty state; and
from any state whose cursor is in bounds, whose live document equals the
current snapshot, and where an undo actually runs (cursor positive), a
redo immediately after the undo restores exactly the document that was
live before the undo. -/
theorem undo_redo_roundtrip (docs : List (List Element)) (s : AppState)
    (hlt : s.historyIndex < s.history.length)
    (hcur : s.history.getD s.historyIndex [] = s.elements)
    (hpos : 0 < s.historyIndex) :
    (handleUndo^[docs.length] (commitList initState docs)).elements = []
    ∧ (handleRedo (handleUndo s)).elements = s.elements := by
  constructor
  · obtain ⟨h1, h2, _⟩ := commitList_spec docs initState (by simp [initState])
    have hone : initState.history.length = 1 := rfl
    have hidx : (commitList initState docs).historyIndex = docs.length := by
      omega
    have hlen : docs.length < (commitList initState docs).history.length := by
      rw [h1]; simp [initState]
    rw [handleUndo_iter docs.length _ hidx hlen]
    by_cases hd : docs.length = 0
    · rw [if_pos hd]
      have : docs = [] := List.length_eq_zero.mp hd
      subst this
      simp [commitList, initState]
    · rw [if_neg hd, h1]
      simp [initState]
  · have hu : handleUndo s
        = { s with historyIndex := s.historyIndex - 1,
                   elements := s.history.getD (s.historyIndex - 1) [] } := by
      simp [handleUndo, hpos]
    have hcond : (handleUndo s).historyIndex < (handleUndo s).history.length - 1 := by
      rw [hu]; simp; omega
    rw [hu] at hcond ⊢
    rw [handleRedo, if_pos hcond]
    simp only
    have : s.historyIndex - 1 + 1 = s.historyIndex := by omega
    rw [this, hcur]

/-- C2 witness: one commit of a one-shape document, one undo (back to the
empty document), and redo-after-undo on a concrete two-entry state. -/
theorem undo_redo_roundtrip_witness :
    (handleUndo^[1] (commitList initState [[shapeA]])).elements = []
    ∧ (handleRedo (handleUndo
        { history := [[], [shapeA]], historyIndex := 1, elements := [shapeA],
          clipboard := none, nextId := 0 })).elements
      = ({ history := [[], [shapeA]], historyIndex := 1, elements := [shapeA],
           clipboard := none, nextId := 0 } : AppState).elements :=
  undo_redo_roundtrip [[shapeA]]
    { history := [[], [shapeA]], historyIndex := 1, elements := [shapeA],
      clipboard := none, nextId := 0 }
    (by decide) (by decide) (by decide)

/-- C3: `commitAction` truncates every entry after the cursor, appends the
new snapshot, and leaves the cursor at the new last index; consequently
redo is a no-op immediately after any commit — in particular after a
commit that follows an undo, all previously-redoable snapshots are gone. -/
theorem commitAction_truncates_redo_unavailable (s : AppState) (d : List Element) :
    (commitAction s d).history = s.history.take (s.historyIndex + 1) ++ [d]
    ∧ (commitAction s d).historyIndex = (commitAction s d).history.length - 1
    ∧ handleRedo (commitAction s d) = commitAction s d := by
  refine ⟨rfl, rfl, ?_⟩
  have h := commitAction_cursor_last s d
  rw [handleRedo, if_neg (by omega)]

/-- The object-spread update `{...el, id, x, y}` used by `handlePaste`:
replace the id and the x/y fields, keep every other field (including a
path's points). -/
def Element.setIdPos : Element → ℕ → ℚ → ℚ → Element
  | .image _ _ _ w h href mime, i, nx, ny => .image i nx ny w h href mime
  | .shape _ st _ _ w h sc sw fc, i, nx, ny => .shape i st nx ny w h sc sw fc
  | .path _ pts sc sw _ _, i, nx, ny => .path i pts sc sw nx ny

/-- `handlePaste` (src/unnamed/part_000 lines 579-591): when the clipboard
holds an element, append a copy with a fresh id and x/y offset by
(+10, +10), then commit; the clipboard itself is not modified. -/
def handlePaste (s : AppState) : AppState :=
  match s.clipboard with
  | none => s
  | some c =>
      let newElement := c.setIdPos s.nextId (c.ex + 10) (c.ey + 10)
      let newElements := s.elements ++ [newElement]
      commitAction { s with elements := newElements, nextId := s.nextId + 1 }
        newElements

theorem setIdPos_eid (c : Element) (i : ℕ) (nx ny : ℚ) :
    (c.setIdPos i nx ny).eid = i := by
  cases c <;> rfl

theorem setIdPos_ex (c : Element) (i : ℕ) (nx ny : ℚ) :
    (c.setIdPos i nx ny).ex = nx := by
  cases c <;> rfl

theorem setIdPos_ey (c : Element) (i : ℕ) (nx ny : ℚ) :
    (c.setIdPos i nx ny).ey = ny := by
  cases c <;> rfl

/-- C6: paste appends exactly one element — the clipboard element with a
freshly generated id and position offset by exactly (+10, +10), all other
fields identical — and does not modify the clipboard; hence pasting twice
appends two elements whose positions are both clipboard + (10, 10) (for a
clipboard at x = 5, y = 5, both land at (15, 15)) with distinct ids. -/
theorem handlePaste_offset_stagger (s : AppState) (c : Element)
    (hc : s.clipboard = some c) :
    (handlePaste s).clipboard = s.clipboard
    ∧ (handlePaste s).elements
        = s.elements ++ [c.setIdPos s.nextId (c.ex + 10) (c.ey + 10)]
    ∧ (c.setIdPos s.nextId (c.ex + 10) (c.ey + 10)).eid = s.nextId
    ∧ (c.setIdPos s.nextId (c.ex + 10) (c.ey + 10)).ex = c.ex + 10
    ∧ (c.setIdPos s.nextId (c.ex + 10) (c.ey + 10)).ey = c.ey + 10
    ∧ (handlePaste (handlePaste s)).elements
        = s.elements ++ [c.setIdPos s.nextId (c.ex + 10) (c.ey + 10),
            c.setIdPos (s.nextId + 1) (c.ex + 10) (c.ey + 10)]
    ∧ (c.setIdPos s.nextId (c.ex + 10) (c.ey + 10)).eid
        ≠ (c.setIdPos (s.nextId + 1) (c.ex + 10) (c.ey + 10)).eid
    ∧ (c.ex = 5 → (c.setIdPos s.nextId (c.ex + 10) (c.ey + 10)).ex = 15)
    ∧ (c.ey = 5 → (c.setIdPos s.nextId (c.ex + 10) (c.ey + 10)).ey = 15) := by
  have h1 : handlePaste s
      = commitAction
          { s with
            elements := s.elements ++ [c.setIdPos s.nextId (c.ex + 10) (c.ey + 10)],
            nextId := s.nextId + 1 }
          (s.elements ++ [c.setIdPos s.nextId (c.ex + 10) (c.ey + 10)]) := by
    rw [handlePaste, hc]
  refine ⟨?_, ?_, setIdPos_eid c _ _ _, setIdPos_ex c _ _ _, setIdPos_ey c _ _ _,
      ?_, ?_, ?_, ?_⟩
  · rw [h1, hc]; rfl
  · rw [h1]; rfl
  · have hclip : (handlePaste s).clipboard = some c := by rw [h1, hc]; rfl
    have h2 : handlePaste (handlePaste s)
        = commitAction
            { history := (handlePaste s).history,
              historyIndex := (handlePaste s).historyIndex,
              elements := (handlePaste s).elements ++
                [c.setIdPos (handlePaste s).nextId (c.ex + 10) (c.ey + 10)],
              clipboard := some c,
              nextId := (handlePaste s).nextId + 1 }
            ((handlePaste s).elements ++
              [c.setIdPos (handlePaste s).nextId (c.ex + 10) (c.ey + 10)]) := by
      rw [handlePaste, hclip]
    have hnext : (handlePaste s).nextId = s.nextId + 1 := by rw [h1]; rfl
    have helems : (handlePaste s).elements
        = s.elements ++ [c.setIdPos s.nextId (c.ex + 10) (c.ey + 10)] := by
      rw [h1]; rfl
    rw [h2, hnext, helems]
    simp [commitAction]
  · rw [setIdPos_eid, setIdPos_eid]; omega
  · intro h5; rw [setIdPos_ex, h5]; norm_num
  · intro h5; rw [setIdPos_ey, h5]; norm_num

/-- A clipboard shape at (5, 5), for the paste scenario. -/
def shapeClip : Element :=
  Element.shape 99 "rectangle" 5 5 20 20 "#000000" 2 "none"

/-- A state whose clipboard holds `shapeClip`. -/
def pasteState : AppState :=
  { history := [[]], historyIndex := 0, elements := [], clipboard := some shapeClip,
    nextId := 0 }

/-- C6 witness: the theorem applied to a concrete state whose clipboard
holds a shape at (5, 5). -/
theorem handlePaste_offset_stagger_witness :
    (handlePaste pasteState).clipboard = pasteState.clipboard
    ∧ (handlePaste pasteState).elements
        = pasteState.elements ++
            [shapeClip.setIdPos pasteState.nextId (shapeClip.ex + 10) (shapeClip.ey + 10)]
    ∧ (shapeClip.setIdPos pasteState.nextId (shapeClip.ex + 10) (shapeClip.ey + 10)).eid
        = pasteState.nextId
    ∧ (shapeClip.setIdPos pasteState.nextId (shapeClip.ex + 10) (shapeClip.ey + 10)).ex
        = shapeClip.ex + 10
    ∧ (shapeClip.setIdPos pasteState.nextId (shapeClip.ex + 10) (shapeClip.ey + 10)).ey
        = shapeClip.ey + 10
    ∧ (handlePaste (handlePaste pasteState)).elements
        = pasteState.elements ++
            [shapeClip.setIdPos pasteState.nextId (shapeClip.ex + 10) (shapeClip.ey + 10),
              shapeClip.setIdPos (pasteState.nextId + 1) (shapeClip.ex + 10) (shapeClip.ey + 10)]
    ∧ (shapeClip.setIdPos pasteState.nextId (shapeClip.ex + 10) (shapeClip.ey + 10)).eid
        ≠ (shapeClip.setIdPos (pasteState.nextId + 1) (shapeClip.ex + 10) (shapeClip.ey + 10)).eid
    ∧ (shapeClip.ex = 5 →
        (shapeClip.setIdPos pasteState.nextId (shapeClip.ex + 10) (shapeClip.ey + 10)).ex = 15)
    ∧ (shapeClip.ey = 5 →
        (shapeClip.setIdPos pasteState.nextId (shapeClip.ex + 10) (shapeClip.ey + 10)).ey = 15) :=
  handlePaste_offset_stagger pasteState shapeClip rfl

/-- `createElement` (src/utils/elementUtils.ts lines 33-62): the rectangle,
circle and triangle tools produce a zero-size shape at (x, y) with the
default stroke/fill; the draw tool produces a single-point path whose
`x`/`y` fields are set to 0 (the source comment: paths are positioned by
their points); other tools produce nothing. The generated id is passed in
(`generateId` is modelled by the caller's fresh-id counter). -/
def createElement (tool : String) (id : ℕ) (x y : ℚ) : Option Element :=
  if tool = "rectangle" ∨ tool = "circle" ∨ tool = "triangle" then
    some (.shape id tool x y 0 0 "#000000" 2 "none")
  else if tool = "draw" then
    some (.path id [⟨x, y⟩] "#000000" 5 0 0)
  else none

/-- A path element's x/y placeholder fields are both 0 (vacuously true for
images and shapes). -/
def pathPosZero (e : Element) : Bool :=
  match e with
  | .path _ _ _ _ x y => decide (x = 0) && decide (y = 0)
  | _ => true

/-- Every path in the document has x = y = 0. -/
def docPathsZero (els : List Element) : Prop :=
  ∀ e ∈ els, pathPosZero e = true

instance (els : List Element) : Decidable (docPathsZero els) :=
  List.decidableBAll _ els

/-- The value saved in `dragStartElementPositions` at pointer-down: the
full point list for a path, the (x, y) position for an image or shape. -/
inductive DragStart where
  | pts (points : List Point)
  | pos (x y : ℚ)

/-- The moving branch of `handleMouseMove` (src/unnamed/part_000 lines
247-270) for one move event: the selected element is rebuilt from its
drag-start snapshot shifted by the pointer delta — a path gets every
point translated (its x/y fields untouched), an image or shape gets its
position set to the snapshot position plus the delta. A mismatched
snapshot kind cannot occur in the source (the snapshot is taken from the
selected element itself) and leaves the element unchanged here. -/
def applyMoveEvent (els : List Element) (selId : ℕ) (start : DragStart)
    (dx dy : ℚ) : List Element :=
  els.map fun el =>
    if el.eid = selId then
      match el, start with
      | .path i _ sc sw x y, .pts opts =>
          .path i (opts.map fun p => ⟨p.x + dx, p.y + dy⟩) sc sw x y
      | .image i _ _ w h href mime, .pos ox oy =>
          .image i (ox + dx) (oy + dy) w h href mime
      | .shape i st _ _ w h sc sw fc, .pos ox oy =>
          .shape i st (ox + dx) (oy + dy) w h sc sw fc
      | e, _ => e
    else el

/-- The erase action on the live document (pointer-down branch lines
196-208 and move branch lines 368-378 share it): hit-test at the point
and, on a hit, remove that element by id. -/
def eraseAt (els : List Element) (x y : ℚ) : List Element :=
  match getElementAtPosition x y els with
  | some e => els.filter fun el => el.eid != e.eid
  | none => els

/-- `handleDelete` (src/unnamed/part_000 lines 593-608), multi-selection
branch: remove every element whose id is in the selection. -/
def deleteSelected (els : List Element) (selectedIds : List ℕ) : List Element :=
  els.filter fun el => !(selectedIds.contains el.eid)

/-- `handleLayerAction` (src/unnamed/part_000 lines 827-848): find the
element by id (JS `findIndex` returning -1 for a miss corresponds to
`findIdx` returning the length), splice it out, and reinsert it at the
end (`front`), start (`back`), one step later (`forward`, clamped to the
remaining length) or one step earlier (`backward`, clamped at 0 by ℕ
subtraction). -/
def handleLayerAction (els : List Element) (elementId : ℕ) (act : String) :
    List Element :=
  let index := els.findIdx fun el => el.eid = elementId
  if index = els.length then els
  else
    let element := els.getD index default
    let rest := els.eraseIdx index
    if act = "front" then rest ++ [element]
    else if act = "back" then element :: rest
    else if act = "forward" then rest.insertIdx (min rest.length (index + 1)) element
    else if act = "backward" then rest.insertIdx (index - 1) element
    else rest

/-- Elements of the reordered document all come from the original
document. -/
theorem handleLayerAction_mem (els : List Element) (elementId : ℕ) (act : String) :
    ∀ a ∈ handleLayerAction els elementId act, a ∈ els := by
  intro a ha
  rw [handleLayerAction] at ha
  by_cases hidx : (els.findIdx fun el => el.eid = elementId) = els.length
  · rw [if_pos hidx] at ha; exact ha
  · rw [if_neg hidx] at ha
    have hlt : (els.findIdx fun el => el.eid = elementId) < els.length :=
      lt_of_le_of_ne (List.findIdx_le_length _) hidx
    have hel : els.getD (els.findIdx fun el => el.eid = elementId) default ∈ els := by
      rw [List.getD_eq_getElem els default hlt]
      exact List.getElem_mem hlt
    have hrest : ∀ b ∈ els.eraseIdx (els.findIdx fun el => el.eid = elementId), b ∈ els :=
      fun b hb => (List.eraseIdx_sublist els _).mem hb
    set i := els.findIdx fun el => el.eid = elementId with hi
    set e := els.getD i default with he
    set rest := els.eraseIdx i with hr
    have hreslen : ∀ n, n ≤ rest.length → ∀ b ∈ rest.insertIdx n e, b ∈ els := by
      intro n hn b hb
      rcases (List.mem_insertIdx hn).mp hb with rfl | hb'
      · exact hel
      · exact hrest b hb'
    split_ifs at ha
    · rcases List.mem_append.mp ha with hb | hb
      · exact hrest a hb
      · rcases List.mem_singleton.mp hb with rfl
        exact hel
    · rcases List.mem_cons.mp ha with rfl | hb
      · exact hel
      · exact hrest a hb
    · exact hreslen _ (min_le_left _ _) a ha
    · refine hreslen _ ?_ a ha
      have hlen : rest.length = els.length - 1 := by
        rw [hr, List.length_eraseIdx els i, if_pos hlt]
      omega
    · exact hrest a ha

/-- C7 (amended): a draw-tool path is created with x = y = 0, and this
invariant on every path of the document is preserved by move, erase,
delete, layer reorder, undo and redo; paste is the exception the
counterexample exhibits (it writes clipboard x + 10 / y + 10 into the
pasted copy, even for a path). -/
theorem path_xy_zero_invariant (i0 : ℕ) (x0 y0 : ℚ) (els : List Element)
    (selId : ℕ) (start : DragStart) (dx dy px py : ℚ) (ids : List ℕ)
    (lid : ℕ) (act : String) (s : AppState)
    (hz : docPathsZero els)
    (hhist : ∀ d ∈ s.history, docPathsZero d)
    (hlive : docPathsZero s.elements) :
    (∃ p, createElement "draw" i0 x0 y0 = some p ∧ pathPosZero p = true)
    ∧ docPathsZero (applyMoveEvent els selId start dx dy)
    ∧ docPathsZero (eraseAt els px py)
    ∧ docPathsZero (deleteSelected els ids)
    ∧ docPathsZero (handleLayerAction els lid act)
    ∧ docPathsZero (handleUndo s).elements
    ∧ docPathsZero (handleRedo s).elements := by
  refine ⟨⟨.path i0 [⟨x0, y0⟩] "#000000" 5 0 0, by simp [createElement], by simp [pathPosZero]⟩,
    ?_, ?_, ?_, ?_, ?_, ?_⟩
  · intro e he
    rw [applyMoveEvent] at he
    obtain ⟨a, ha, rfl⟩ := List.mem_map.mp he
    have hza := hz a ha
    by_cases hsel : a.eid = selId
    · rw [if_pos hsel]
      cases a with
      | path i pts sc sw x y =>
          cases start with
          | pts opts => simpa [pathPosZero] using hza
          | pos ox oy => simpa [pathPosZero] using hza
      | image i x y w h href mime =>
          cases start <;> simp [pathPosZero]
      | shape i st x y w h sc sw fc =>
          cases start <;> simp [pathPosZero]
    · rw [if_neg hsel]
      exact hza
  · intro e he
    rw [eraseAt] at he
    cases hhit : getElementAtPosition px py els with
    | some b => rw [hhit] at he; exact hz e (List.mem_of_mem_filter he)
    | none => rw [hhit] at he; exact hz e he
  · intro e he
    exact hz e (List.mem_of_mem_filter he)
  · intro e he
    exact hz e (handleLayerAction_mem els lid act e he)
  · rw [handleUndo]
    by_cases hpos : 0 < s.historyIndex
    · rw [if_pos hpos]
      intro e he
      simp only at he
      by_cases hb : s.historyIndex - 1 < s.history.length
      · rw [List.getD_eq_getElem s.history [] hb] at he
        exact hhist _ (List.getElem_mem hb) e he
      · rw [List.getD_eq_default s.history [] (by omega)] at he
        exact absurd he (List.not_mem_nil e)
    · rw [if_neg hpos]
      exact hlive
  · rw [handleRedo]
    by_cases hlt : s.historyIndex < s.history.length - 1
    · rw [if_pos hlt]
      intro e he
      simp only at he
      have hb : s.historyIndex + 1 < s.history.length := by omega
      rw [List.getD_eq_getElem s.history [] hb] at he
      exact hhist _ (List.getElem_mem hb) e he
    · rw [if_neg hlt]
      exact hlive

/-- A path with x = y = 0 whose geometry lives in its points, used for the
C7 scenario. -/
def zeroPath : Element :=
  Element.path 3 [⟨1, 2⟩, ⟨3, 4⟩] "#000000" 5 0 0

/-- A state whose document and clipboard hold `zeroPath`. -/
def pathPasteState : AppState :=
  { history := [[zeroPath]], historyIndex := 0, elements := [zeroPath],
    clipboard := some zeroPath, nextId := 7 }

/-- C7 counterexample: pasting a path whose x/y are 0 produces a document
whose new path element has x = 10 and y = 10 — a document-mutating
operation after which a path's x/y fields are no longer 0. -/
theorem paste_breaks_path_xy_zero :
    docPathsZero pathPasteState.elements
    ∧ (handlePaste pathPasteState).elements
        = [zeroPath, Element.path 7 [⟨1, 2⟩, ⟨3, 4⟩] "#000000" 5 10 10]
    ∧ pathPosZero (Element.path 7 [⟨1, 2⟩, ⟨3, 4⟩] "#000000" 5 10 10) = false := by
  refine ⟨by decide, ?_, by decide⟩
  norm_num [handlePaste, commitAction, Element.setIdPos, Element.ex, Element.ey,
    pathPasteState, zeroPath]

/-- C7 witness: the invariant theorem applied to a concrete document, a
concrete move/erase/delete/reorder input and a concrete two-snapshot
state. -/
theorem path_xy_zero_invariant_witness :
    (∃ p, createElement "draw" 5 1 2 = some p ∧ pathPosZero p = true)
    ∧ docPathsZero (applyMoveEvent [zeroPath] 3 (DragStart.pts [⟨1, 2⟩, ⟨3, 4⟩]) 4 4)
    ∧ docPathsZero (eraseAt [zeroPath] 1 2)
    ∧ docPathsZero (deleteSelected [zeroPath] [3])
    ∧ docPathsZero (handleLayerAction [zeroPath] 3 "front")
    ∧ docPathsZero (handleUndo pathPasteState).elements
    ∧ docPathsZero (handleRedo pathPasteState).elements :=
  path_xy_zero_invariant 5 1 2 [zeroPath] 3 (DragStart.pts [⟨1, 2⟩, ⟨3, 4⟩]) 4 4 1 2
    [3] 3 "front" pathPasteState (by decide) (by decide) (by decide)

/-- The erase branch of `handleMouseDown` (src/unnamed/part_000 lines
196-208): hit-test at the press point and, on a hit, remove that element
and commit immediately. -/
def eraseDown (s : AppState) (x y : ℚ) : AppState :=
  match getElementAtPosition x y s.elements with
  | some e =>
      let newElements := s.elements.filter fun el => el.eid != e.eid
      commitAction { s with elements := newElements } newElements
  | none => s

/-- The erase branch of `handleMouseMove` (src/unnamed/part_000 lines
368-378): hit-test at the current point and, on a hit, remove that
element from the live document without committing. -/
def eraseMove (s : AppState) (x y : ℚ) : AppState :=
  { s with elements := eraseAt s.elements x y }

/-- The erase branch of `handleMouseUp` (src/unnamed/part_000 lines
419-421): commit the current (already-mutated) document. -/
def eraseUp (s : AppState) : AppState :=
  commitAction s s.elements

/-- One whole erase gesture: pointer-down at `down`, a pointer-move at
each point of `moves`, then pointer-up. -/
def eraseGesture (s : AppState) (down : Point) (moves : List Point) : AppState :=
  eraseUp (moves.foldl (fun t p => eraseMove t p.x p.y) (eraseDown s down.x down.y))

theorem eraseMove_history (s : AppState) (x y : ℚ) :
    (eraseMove s x y).history = s.history
    ∧ (eraseMove s x y).historyIndex = s.historyIndex := ⟨rfl, rfl⟩

theorem eraseMoves_history (moves : List Point) :
    ∀ s : AppState,
      ((moves.foldl (fun t p => eraseMove t p.x p.y) s).history = s.history
      ∧ (moves.foldl (fun t p => eraseMove t p.x p.y) s).historyIndex
          = s.historyIndex) := by
  induction moves with
  | nil => intro s; exact ⟨rfl, rfl⟩
  | cons p rest ih =>
      intro s
      simpa [List.foldl_cons, eraseMove] using ih (eraseMove s p.x p.y)

/-- C8 (amended): when the gesture starts with the cursor at the end of
history, an erase gesture appends exactly two history entries if the
pointer-down point itself hits an element (one commit at pointer-down,
one at pointer-up) and exactly one entry otherwise (the pointer-up
commit alone) — never exactly one entry for every deleting gesture. -/
theorem erase_gesture_commit_count (s : AppState) (down : Point) (moves : List Point)
    (hidx : s.historyIndex + 1 = s.history.length) :
    (eraseGesture s down moves).history.length
      = s.history.length
        + (if (getElementAtPosition down.x down.y s.elements).isSome then 2 else 1) := by
  rw [eraseGesture]
  cases hhit : getElementAtPosition down.x down.y s.elements with
  | some e =>
      have hdown : eraseDown s down.x down.y
          = commitAction { s with elements := s.elements.filter fun el => el.eid != e.eid }
              (s.elements.filter fun el => el.eid != e.eid) := by
        rw [eraseDown, hhit]
      have hd1 : (eraseDown s down.x down.y).history.length = s.history.length + 1 := by
        rw [hdown,
          commitAction_append { s with elements := s.elements.filter fun el => el.eid != e.eid }
            (s.elements.filter fun el => el.eid != e.eid) hidx]
        simp
      have hd2 : (eraseDown s down.x down.y).historyIndex + 1
          = (eraseDown s down.x down.y).history.length := by
        rw [hdown]; exact commitAction_cursor_last _ _
      obtain ⟨hf1, hf2⟩ := eraseMoves_history moves (eraseDown s down.x down.y)
      have hcur : (moves.foldl (fun t p => eraseMove t p.x p.y)
            (eraseDown s down.x down.y)).historyIndex + 1
          = (moves.foldl (fun t p => eraseMove t p.x p.y)
            (eraseDown s down.x down.y)).history.length := by
        rw [hf1, hf2]; exact hd2
      rw [eraseUp, commitAction_append _ _ hcur]
      simp only [List.length_append, List.length_cons, List.length_nil, hf1, hd1, hhit,
        Option.isSome_some, if_true]
  | none =>
      have hdown : eraseDown s down.x down.y = s := by
        rw [eraseDown, hhit]
      rw [hdown]
      obtain ⟨hf1, hf2⟩ := eraseMoves_history moves s
      have hcur : (moves.foldl (fun t p => eraseMove t p.x p.y) s).historyIndex + 1
          = (moves.foldl (fun t p => eraseMove t p.x p.y) s).history.length := by
        rw [hf1, hf2]; exact hidx
      rw [eraseUp, commitAction_append _ _ hcur]
      simp only [List.length_append, List.length_cons, List.length_nil, hf1, hhit,
        Option.isSome_none, if_false, Bool.false_eq_true]

/-- A two-snapshot state whose live document is the single shape `shapeA`
at (0, 0, 10, 10), cursor at the end. -/
def eraseState : AppState :=
  { history := [[], [shapeA]], historyIndex := 1, elements := [shapeA],
    clipboard := none, nextId := 0 }

/-- C8 counterexample: an erase gesture that presses at (5, 5) — hitting
and deleting the one shape — and releases without moving deletes one
element but appends TWO history entries (one committed at pointer-down,
one at pointer-up), not exactly one. -/
theorem erase_gesture_commit_counterexample :
    (eraseGesture eraseState ⟨5, 5⟩ []).elements = []
    ∧ eraseState.elements.length = 1
    ∧ (eraseGesture eraseState ⟨5, 5⟩ []).history.length
        = eraseState.history.length + 2 := by
  refine ⟨?_, rfl, ?_⟩
  · norm_num [eraseGesture, eraseDown, eraseUp, eraseMove, getElementAtPosition,
      hitFromTop, hitMatches, commitAction, eraseState, shapeA, Element.eid]
  · norm_num [eraseGesture, eraseDown, eraseUp, eraseMove, getElementAtPosition,
      hitFromTop, hitMatches, commitAction, eraseState, shapeA, Element.eid]

/-- C8 witness: the amended commit-count theorem applied to the concrete
gesture of the counterexample (a hitting press: two new entries). -/
theorem erase_gesture_commit_count_witness :
    (eraseGesture eraseState ⟨5, 5⟩ []).history.length
      = eraseState.history.length
        + (if (getElementAtPosition (5 : ℚ) (5 : ℚ) eraseState.elements).isSome
            then 2 else 1) :=
  erase_gesture_commit_count eraseState ⟨5, 5⟩ [] (by decide)

/-- The resizing branch of `handleMouseMove` (src/unnamed/part_000 lines
271-340), computing the resized rectangle of the original image/shape
element from the handle name (`tl`, `tm`, `tr`, `ml`, `mr`, `bl`, `bm`,
`br` — tested by character containment, as `handle.includes`), the
pointer delta `(dx, dy)` and the recorded shift-key state. The JS handle
string is modelled as its character list, and `handle.includes(c)` as
list containment. The edge moves come first, then the clamp of each
dimension to the minimum size 10 (repositioning the leading edge for
`l`/`t` handles), and only after the clamp the shift aspect-ratio
correction recomputes one dimension from the other using the ORIGINAL
width/height ratio. -/
def resizeUpdate (o : Rect) (handle : List Char) (dx dy : ℚ) (shiftKey : Bool) : Rect :=
  let hl := handle.contains 'l'
  let hr := handle.contains 'r'
  let ht := handle.contains 't'
  let hb := handle.contains 'b'
  let x1 := if hl then o.x + dx else o.x
  let w1 := if hl then o.width - dx else o.width
  let w2 := if hr then o.width + dx else w1
  let y1 := if ht then o.y + dy else o.y
  let h1 := if ht then o.height - dy else o.height
  let h2 := if hb then o.height + dy else h1
  let minSize : ℚ := 10
  let x2 := if w2 < minSize then (if hl then o.x + o.width - minSize else x1) else x1
  let w3 := if w2 < minSize then minSize else w2
  let y2 := if h2 < minSize then (if ht then o.y + o.height - minSize else y1) else y1
  let h3 := if h2 < minSize then minSize else h2
  if shiftKey then
    let aspect := o.width / o.height
    if ht || hb then
      let w4 := h3 * aspect
      let x3 := if hl then o.x + o.width - w4 else x2
      { x := x3, y := y2, width := w4, height := h3 }
    else
      let h4 := w3 / aspect
      let y3 := if ht then o.y + o.height - h4 else y2
      { x := x2, y := y3, width := w3, height := h4 }
  else
    { x := x2, y := y2, width := w3, height := h3 }

/-- The `elements.map` of the resizing branch: write the computed
rectangle back into the element with the original element's id. -/
def Element.setRect : Element → Rect → Element
  | .image i _ _ _ _ href mime, r => .image i r.x r.y r.width r.height href mime
  | .shape i st _ _ _ _ sc sw fc, r => .shape i st r.x r.y r.width r.height sc sw fc
  | .path i pts sc sw _ _, r => .path i pts sc sw r.x r.y

/-- The document update performed while resizing (unique ids make the
path case unreachable: the original element is always an image/shape). -/
def applyResize (els : List Element) (origId : ℕ) (r : Rect) : List Element :=
  els.map fun el => if el.eid = origId then el.setRect r else el

/-- C1 (amended): without the shift aspect-lock, the resize update clamps
both dimensions to the floor of 10 for every original rectangle, every
handle and every drag distance. (With shift held the aspect correction
runs after the clamp and can push the derived dimension back below 10 —
the counterexample.) -/
theorem resize_min_floor_no_shift (o : Rect) (handle : List Char) (dx dy : ℚ) :
    10 ≤ (resizeUpdate o handle dx dy false).width
    ∧ 10 ≤ (resizeUpdate o handle dy dx false).height := by
  constructor
  · rw [resizeUpdate]
    simp only [Bool.false_eq_true, if_false]
    split_ifs <;> simp_all
  · rw [resizeUpdate]
    simp only [Bool.false_eq_true, if_false]
    split_ifs <;> simp_all

/-- C1 counterexample: resizing a 100 × 200 element with the
bottom-middle handle `bm`, dragging 195 units upward with shift held:
the height clamps to the floor 10, but the aspect correction then sets
the width to 10 · (100/200) = 5 — below the floor of 10. -/
theorem resize_min_floor_counterexample :
    (resizeUpdate { x := 0, y := 0, width := 100, height := 200 } ['b', 'm'] 0 (-195) true).width = 5
    ∧ (5 : ℚ) < 10
    ∧ (resizeUpdate { x := 0, y := 0, width := 100, height := 200 } ['b', 'm'] 0 (-195) true).height = 10 := by
  have hcl : (['b', 'm'] : List Char).contains 'l' = false := by decide
  have hcr : (['b', 'm'] : List Char).contains 'r' = false := by decide
  have hct : (['b', 'm'] : List Char).contains 't' = false := by decide
  have hcb : (['b', 'm'] : List Char).contains 'b' = true := by decide
  refine ⟨?_, by norm_num, ?_⟩
  · norm_num [resizeUpdate, hcl, hcr, hct, hcb]
  · norm_num [resizeUpdate, hcl, hcr, hct, hcb]

/-- An abstraction of the offscreen canvas `toDataURL` re-encode performed
after a successful `img.onload` (the pixel content is irrelevant to the
claims; only data-URL-ness and the mime type matter). -/
def drawToDataUrl (href mime : String) : String :=
  "data:" ++ mime ++ ";canvas," ++ href

/-- The blank white 512 × 512 data URL produced by the fallback canvas. -/
def white512 : String :=
  "data:image/png;white512"

/-- The branch test `el.href.startsWith('data:')` (line 651), written as
a character-prefix test so that it evaluates on concrete inputs. -/
def hrefIsDataUrl (href : String) : Bool :=
  List.isPrefixOf "data:".data href.data

/-- One selected image's conversion in `handleGenerateArt`
(src/unnamed/part_000 lines 649-691), with the source's ACTUAL
asynchronous semantics. A data-URL input passes through. An external URL
is loaded through `new Image()`: on `onload` the canvas re-encode
resolves; on `onerror` the promise REJECTS with
`Failed to load image: <href>`. The surrounding `try { ... return new
Promise(...) } catch { ...white 512 fallback... }` cannot intercept that
rejection: the `return` leaves the `try` block before the promise
settles and the promise is returned without `await`, so the `catch`
(lines 673-687) only guards the synchronous canvas construction and the
white-512 substitution is unreachable for a load failure. `fetchOk`
models which URLs load successfully. -/
def convertSelectedImage (fetchOk : String → Bool) (href mime : String) :
    Except String (String × String) :=
  if hrefIsDataUrl href then .ok (href, mime)
  else if fetchOk href then .ok (drawToDataUrl href mime, mime)
  else .error ("Failed to load image: " ++ href)

/-- `Promise.all`: resolve with the list of results, or reject with the
first rejection. -/
def promiseAll : List (Except String (String × String)) →
    Except String (List (String × String))
  | [] => .ok []
  | x :: xs =>
      match x with
      | .error e => .error e
      | .ok v =>
          match promiseAll xs with
          | .error e => .error e
          | .ok vs => .ok (v :: vs)

/-- The input-collection phase of `handleGenerateArt`: with no selected
image, a blank white 512 × 512 canvas is the sole input; otherwise every
selected image element is converted and the conversions are awaited with
`Promise.all`. -/
def collectGenerationInputs (fetchOk : String → Bool)
    (selectedImages : List (String × String)) :
    Except String (List (String × String)) :=
  if selectedImages.isEmpty then .ok [(white512, "image/png")]
  else promiseAll (selectedImages.map fun im => convertSelectedImage fetchOk im.1 im.2)

/-- Whether the service call is reached with a list of encoded inputs, or
the whole batch is aborted by the outer `catch` of `handleGenerateArt`
(lines 726-730), which turns any rejection into the transient error
message and never calls the service. -/
inductive GenOutcome where
  | proceeds (inputs : List (String × String))
  | aborted (errorMessage : String)
deriving DecidableEq

/-- `handleGenerateArt` up to the service call: a rejection anywhere in
the input collection reaches the outer `catch` and aborts the batch. -/
def handleGenerateArtInputs (fetchOk : String → Bool)
    (selectedImages : List (String × String)) : GenOutcome :=
  match collectGenerationInputs fetchOk selectedImages with
  | .ok inputs => .proceeds inputs
  | .error msg => .aborted ("Failed to generate image: " ++ msg)

/-- C9 evaluation at the failing input: a batch of one good data-URL
image and one external-URL image whose fetch fails is ABORTED with the
load-failure message — the white 512 × 512 substitution never happens
and the remaining input does not proceed to the service call,
contradicting the claim's per-item degradation. -/
theorem generate_art_aborts_on_broken_url :
    handleGenerateArtInputs (fun _ => false)
        [("data:image/png;good", "image/png"),
          ("http://broken.example/a.png", "image/png")]
      = .aborted "Failed to generate image: Failed to load image: http://broken.example/a.png" := by
  rfl
